import Mathlib

/-!
Verification development for a grid-world snake environment with a hybrid
RL/planning agent.  The definitions below are a shallow embedding of the
program: `SnakeEnv`, `resetWith`, `stepWith`, `getState` embed the
environment state machine (snake_env.py); `safeActions`, `simulateStep`,
`shortestPathDist`, `floodFillSize`, `chooseAction` embed the hybrid agent
(agent.py); `loadQTable` embeds the persisted-table loader
(train_q_learning.py / eval.py).  Randomness (food placement) is made
explicit as a choice parameter; machine floats are modelled as rationals;
Python exceptions are modelled by explicit error results.
-/

/-- A board cell, as a pair of integers (x, y). -/
abbrev Point := Int × Int

/-- A heading unit vector (snake_env.py `Direction`). -/
structure Direction where
  x : Int
  y : Int
deriving DecidableEq, Repr

/-- snake_env.py `UP = Direction(0, -1)`. -/
def UP : Direction := ⟨0, -1⟩

/-- snake_env.py `RIGHT = Direction(1, 0)`. -/
def RIGHT : Direction := ⟨1, 0⟩

/-- snake_env.py `DOWN = Direction(0, 1)`. -/
def DOWN : Direction := ⟨0, 1⟩

/-- snake_env.py `LEFT = Direction(-1, 0)`. -/
def LEFT : Direction := ⟨-1, 0⟩

/-- snake_env.py `CLOCKWISE = [RIGHT, DOWN, LEFT, UP]`. -/
def CLOCKWISE : List Direction := [RIGHT, DOWN, LEFT, UP]

/-- The mutable state of snake_env.py `SnakeEnv` (width, height, snake body
head-first, current heading, food cell, score, frames since last food). -/
structure SnakeEnv where
  width : Int
  height : Int
  snake : List Point
  direction : Direction
  food : Point
  score : Int
  frame_count : Int
deriving DecidableEq, Repr

/-- The in-bounds cells not occupied by the snake, in the order produced by
the list comprehension in `SnakeEnv._place_food` (x outer, y inner).
Python `range(n)` of a non-positive `n` is empty, hence `Int.toNat`. -/
def candidatesList (env : SnakeEnv) : List Point :=
  (List.range env.width.toNat).flatMap fun x =>
    (List.range env.height.toNat).filterMap fun y =>
      if ((Int.ofNat x, Int.ofNat y) : Point) ∈ env.snake then none
      else some (Int.ofNat x, Int.ofNat y)

/-- `SnakeEnv._place_food`: food becomes the sentinel (-1, -1) when no free
cell exists, else some free cell; `choice` makes the rng pick explicit
(`rng.choice(candidates)` returns an arbitrary element of the list). -/
def placeFood (env : SnakeEnv) (choice : Nat) : SnakeEnv :=
  match candidatesList env with
  | [] => { env with food := (-1, -1) }
  | c :: cs =>
    { env with
      food := (c :: cs).get ⟨choice % (c :: cs).length, Nat.mod_lt _ (Nat.succ_pos _)⟩ }

/-- `SnakeEnv.reset`: length-3 snake centered on the board heading right,
score and frame counter cleared, food placed.  Python `//` is floor
division, hence `Int.fdiv`. -/
def resetWith (width height : Int) (foodChoice : Nat) : SnakeEnv :=
  let cx := Int.fdiv width 2
  let cy := Int.fdiv height 2
  placeFood
    { width := width
      height := height
      snake := [(cx, cy), (cx - 1, cy), (cx - 2, cy)]
      direction := RIGHT
      food := (0, 0)
      score := 0
      frame_count := 0 }
    foodChoice

/-- `SnakeEnv._is_collision`: out of bounds, or in `snake[1:]` (every body
cell except the head; this includes the tail). -/
def isCollision (env : SnakeEnv) (pt : Point) : Bool :=
  if pt.1 < 0 ∨ env.width ≤ pt.1 ∨ pt.2 < 0 ∨ env.height ≤ pt.2 then true
  else if pt ∈ env.snake.tail then true
  else false

/-- `CLOCKWISE.index(d)` (4 when absent; Python would raise there, but the
environment's heading is always one of the four listed directions). -/
def clockwiseIdx (d : Direction) : Nat :=
  CLOCKWISE.findIdx (fun c => decide (c = d))

/-- `CLOCKWISE[i % 4]`: modular indexing into the clockwise order. -/
def dirAt (i : Nat) : Direction :=
  CLOCKWISE.getD (i % 4) RIGHT

/-- `SnakeEnv._next_direction`: same / next-clockwise / previous-clockwise
heading for actions 0/1/2, `none` (Python `ValueError`) otherwise.
Python `(idx - 1) % 4` equals `(idx + 3) % 4` for `idx < 4`. -/
def nextDirection (d : Direction) (action : Int) : Option Direction :=
  let idx := clockwiseIdx d
  if action = 0 then some (dirAt idx)
  else if action = 1 then some (dirAt (idx + 1))
  else if action = 2 then some (dirAt (idx + 3))
  else none

/-- `SnakeEnv._next_head`: head cell displaced by a direction vector. -/
def nextHead (env : SnakeEnv) (d : Direction) : Point :=
  let h := env.snake.headD (0, 0)
  (h.1 + d.x, h.2 + d.y)

/-- `abs(a[0] - b[0]) + abs(a[1] - b[1])`, as used for the food-distance
reward shaping in `SnakeEnv.step` and in `HybridSnakeAgent._manhattan`. -/
def manhattanDist (a b : Point) : Nat :=
  (a.1 - b.1).natAbs + (a.2 - b.2).natAbs

/-- Python `int(bool)`. -/
def boolNat (b : Bool) : Nat := if b then 1 else 0

/-- `SnakeEnv.get_state`: the 11-feature binary encoding (danger
straight/right/left, heading flags, food direction flags). -/
def getState (env : SnakeEnv) : List Nat :=
  let hd := env.snake.headD (0, 0)
  let ptStraight := nextHead env env.direction
  let rightDir := (nextDirection env.direction 1).getD RIGHT
  let leftDir := (nextDirection env.direction 2).getD RIGHT
  let ptRight := nextHead env rightDir
  let ptLeft := nextHead env leftDir
  [ boolNat (isCollision env ptStraight),
    boolNat (isCollision env ptRight),
    boolNat (isCollision env ptLeft),
    boolNat (decide (env.direction = LEFT)),
    boolNat (decide (env.direction = RIGHT)),
    boolNat (decide (env.direction = UP)),
    boolNat (decide (env.direction = DOWN)),
    boolNat (decide (env.food.1 < hd.1)),
    boolNat (decide (env.food.1 > hd.1)),
    boolNat (decide (env.food.2 < hd.2)),
    boolNat (decide (env.food.2 > hd.2)) ]

/-- The tuple `(state, reward, done, info)` returned by `SnakeEnv.step`,
together with the mutated environment. -/
structure StepOutput where
  env : SnakeEnv
  state : List Nat
  reward : ℚ
  done : Bool
  reason : String
deriving DecidableEq, Repr

/-- Result of `SnakeEnv.step`: `err` models the `ValueError` raised on an
invalid action (carrying the state as mutated up to the raise point). -/
inductive StepResult where
  | err (env : SnakeEnv)
  | ok (out : StepOutput)
deriving DecidableEq, Repr

/-- Reason string of a step result (`"error"` for a raised exception). -/
def StepResult.reasonD : StepResult → String
  | .err _ => "error"
  | .ok out => out.reason

/-- Reward of a step result (0 for a raised exception). -/
def StepResult.rewardD : StepResult → ℚ
  | .err _ => 0
  | .ok out => out.reward

/-- Environment state after a step (for `err`, the state at raise time). -/
def StepResult.envD : StepResult → SnakeEnv
  | .err e => e
  | .ok out => out.env

/-- Encoded state returned by a step ([] for a raised exception). -/
def StepResult.stateD : StepResult → List Nat
  | .err _ => []
  | .ok out => out.state

/-- Done flag of a step result. -/
def StepResult.doneD : StepResult → Bool
  | .err _ => false
  | .ok out => out.done

/-- The tail of `SnakeEnv.step` after the move has been applied: win check
(`score >= width*height - 3`, reward 50), stall check
(`frame_count > width*height*2`, reward -5), else continue with the
step's own reward and reason "running". -/
def stepFinish (env : SnakeEnv) (reward : ℚ) : StepResult :=
  if env.width * env.height - 3 ≤ env.score then
    .ok ⟨env, getState env, 50, true, "win"⟩
  else if env.width * env.height * 2 < env.frame_count then
    .ok ⟨env, getState env, -5, true, "stuck"⟩
  else
    .ok ⟨env, getState env, reward, false, "running"⟩

/-- The environment after the food-eating branch of `SnakeEnv.step`:
frame counter incremented then reset to 0, heading updated, head inserted
(tail kept), score incremented, food re-placed. -/
def eatEnv (env : SnakeEnv) (d : Direction) (foodChoice : Nat) : SnakeEnv :=
  { placeFood
      { env with
        frame_count := env.frame_count + 1
        direction := d
        snake := nextHead env d :: env.snake
        score := env.score + 1 }
      foodChoice
    with frame_count := 0 }

/-- The environment after the plain-move branch of `SnakeEnv.step`:
frame counter incremented, heading updated, head inserted then tail
popped. -/
def moveEnv (env : SnakeEnv) (d : Direction) : SnakeEnv :=
  { env with
    frame_count := env.frame_count + 1
    direction := d
    snake := (nextHead env d :: env.snake).dropLast }

/-- `SnakeEnv.step`.  The frame counter is incremented and the heading
resolved before anything else; an invalid action raises after the frame
increment (`err`).  On collision the episode ends at once with reward -12
and the state encoded from the pre-move snake but the updated heading.
Otherwise the move is applied (eat: reward 15; move: -0.03 plus or minus
0.2 by Manhattan-distance progress) and the win/stall checks run.
`isCollision`, `nextHead` and the food-distance reads only touch fields
that are still unchanged at the corresponding point of the Python code,
so they are evaluated on `env`. -/
def stepWith (env : SnakeEnv) (action : Int) (foodChoice : Nat) : StepResult :=
  let prevHead := env.snake.headD (0, 0)
  let prevFoodDist := manhattanDist env.food prevHead
  match nextDirection env.direction action with
  | none => .err { env with frame_count := env.frame_count + 1 }
  | some d =>
    let newHead := nextHead env d
    let envC : SnakeEnv :=
      { env with
        frame_count := env.frame_count + 1
        direction := d }
    if isCollision env newHead then
      .ok ⟨envC, getState envC, -12, true, "collision"⟩
    else if newHead = env.food then
      stepFinish (eatEnv env d foodChoice) 15
    else
      let newFoodDist := manhattanDist env.food newHead
      stepFinish (moveEnv env d)
        (if newFoodDist < prevFoodDist then -3/100 + 2/10
         else if prevFoodDist < newFoodDist then -3/100 - 2/10
         else -3/100)

/-- The heading `step` resolves for an action in {0,1,2}. -/
def resolvedDir (env : SnakeEnv) (a : Int) : Direction :=
  (nextDirection env.direction a).getD RIGHT

/-- The new head cell `step` computes for an action in {0,1,2}. -/
def resolvedNewHead (env : SnakeEnv) (a : Int) : Point :=
  nextHead env (resolvedDir env a)

/-- `HybridSnakeAgent._in_bounds`. -/
def inBounds (p : Point) (width height : Int) : Bool :=
  decide (0 ≤ p.1 ∧ p.1 < width ∧ 0 ≤ p.2 ∧ p.2 < height)

/-- `HybridSnakeAgent._simulate_step`: hypothetical next head, next body and
whether the move eats food, without mutating the environment.  Eating keeps
the tail (body grows); otherwise the last segment is dropped.  Actions
other than 0 and 1 fall into the turn-left branch, as in the Python
`if/elif/else`. -/
def simulateStep (env : SnakeEnv) (action : Int) : Point × List Point × Bool :=
  let idx := clockwiseIdx env.direction
  let nextDir :=
    if action = 0 then dirAt idx
    else if action = 1 then dirAt (idx + 1)
    else dirAt (idx + 3)
  let hd := env.snake.headD (0, 0)
  let nh := (hd.1 + nextDir.x, hd.2 + nextDir.y)
  let ate := nh = env.food
  let nbody := if ate then nh :: env.snake else nh :: env.snake.dropLast
  (nh, nbody, ate)

/-- `HybridSnakeAgent._safe_actions`: the relative actions in (0, 1, 2)
whose hypothetical head is in bounds and not in the hypothetical body
minus its own head. -/
def safeActions (env : SnakeEnv) : List Int :=
  ([0, 1, 2] : List Int).filter fun a =>
    let r := simulateStep env a
    inBounds r.1 env.width env.height && decide (r.1 ∉ r.2.1.tail)

/-- One BFS expansion in `HybridSnakeAgent._shortest_path_dist`: scan the
four neighbours in order, skipping out-of-bounds, blocked and visited
cells, returning distance d+1 as soon as the target is found, else
appending fresh cells to the queue and visited set. -/
def bfsNbrs (blocked : List Point) (target : Point) (width height : Int) (d : Nat) :
    List Point → List (Point × Nat) → List Point → Sum Nat (List (Point × Nat) × List Point)
  | [], queue, visited => .inr (queue, visited)
  | n :: ns, queue, visited =>
    if inBounds n width height = false then
      bfsNbrs blocked target width height d ns queue visited
    else if n ∈ blocked ∨ n ∈ visited then
      bfsNbrs blocked target width height d ns queue visited
    else if n = target then .inl (d + 1)
    else bfsNbrs blocked target width height d ns (queue ++ [(n, d + 1)]) (visited ++ [n])

/-- The `while q:` loop of `HybridSnakeAgent._shortest_path_dist`, with an
explicit fuel bound; each iteration pops one queue entry and pushes only
never-visited cells, so `width*height + 1` fuel is never exhausted before
the queue empties. -/
def bfsLoop (blocked : List Point) (target : Point) (width height : Int) :
    Nat → List (Point × Nat) → List Point → Option Nat
  | 0, _, _ => none
  | _ + 1, [], _ => none
  | fuel + 1, (p, d) :: rest, visited =>
    match bfsNbrs blocked target width height d
        [(p.1 + 1, p.2), (p.1 - 1, p.2), (p.1, p.2 + 1), (p.1, p.2 - 1)] rest visited with
    | .inl ans => some ans
    | .inr qv => bfsLoop blocked target width height fuel qv.1 qv.2

/-- `HybridSnakeAgent._shortest_path_dist`: 0 if start equals target, the
`None` sentinel if the target is blocked, else a breadth-first search. -/
def shortestPathDist (start target : Point) (blocked : List Point)
    (width height : Int) : Option Nat :=
  if start = target then some 0
  else if target ∈ blocked then none
  else bfsLoop blocked target width height (width.toNat * height.toNat + 1)
    [(start, 0)] [start]

/-- One flood-fill expansion in `HybridSnakeAgent._flood_fill_size`. -/
def floodNbrs (blocked : List Point) (width height : Int) :
    List Point → List Point → List Point → List Point × List Point
  | [], queue, visited => (queue, visited)
  | n :: ns, queue, visited =>
    if inBounds n width height = false then
      floodNbrs blocked width height ns queue visited
    else if n ∈ blocked ∨ n ∈ visited then
      floodNbrs blocked width height ns queue visited
    else floodNbrs blocked width height ns (queue ++ [n]) (visited ++ [n])

/-- The `while q:` loop of `HybridSnakeAgent._flood_fill_size`, fueled like
`bfsLoop`; returns the number of visited cells. -/
def floodLoop (blocked : List Point) (width height : Int) :
    Nat → List Point → List Point → Nat
  | 0, _, visited => visited.length
  | _ + 1, [], visited => visited.length
  | fuel + 1, p :: rest, visited =>
    let r := floodNbrs blocked width height
      [(p.1 + 1, p.2), (p.1 - 1, p.2), (p.1, p.2 + 1), (p.1, p.2 - 1)] rest visited
    floodLoop blocked width height fuel r.1 r.2

/-- `HybridSnakeAgent._flood_fill_size`: 0 when the start cell is blocked
or out of bounds, else the reachable-cell count. -/
def floodFillSize (start : Point) (blocked : List Point) (width height : Int) : Nat :=
  if start ∈ blocked ∨ inBounds start width height = false then 0
  else floodLoop blocked width height (width.toNat * height.toNat + 1) [start] [start]

/-- A value table: encoded states mapped to per-action score lists. -/
abbrev QTable := List (List Nat × List ℚ)

/-- `self.q_table.get(state, [0.0, 0.0, 0.0])`. -/
def qLookup (qt : QTable) (s : List Nat) : List ℚ :=
  match qt.find? (fun kv => decide (kv.1 = s)) with
  | some kv => kv.2
  | none => [0, 0, 0]

/-- The per-candidate composite score in `HybridSnakeAgent.choose_action`:
learned value * 0.7 + progress * 1.8 + reachable area * 0.03 + eat bonus
6.0 - trap penalty 6.0 (trap when reachable area < body length + 2;
progress is base distance minus path distance when a path to food exists,
-2 when no path exists and the move does not eat). -/
def candScore (env : SnakeEnv) (qv : List ℚ) (baseDist : Nat) (a : Int) : ℚ :=
  let r := simulateStep env a
  let nh := r.1
  let nbody := r.2.1
  let ate := r.2.2
  let blocked := nbody.tail
  let dist := shortestPathDist nh env.food blocked env.width env.height
  let free := floodFillSize nh blocked env.width env.height
  let trapPenalty : ℚ := if free < nbody.length + 2 then 6 else 0
  let progress : ℚ :=
    match dist with
    | some dd => (baseDist : ℚ) - (dd : ℚ)
    | none => if ate then 0 else -2
  qv.getD a.toNat 0 * (7 / 10) + progress * (9 / 5) + (free : ℚ) * (3 / 100)
    + (if ate then (6 : ℚ) else 0) - trapPenalty

/-- The candidate loop of `HybridSnakeAgent.choose_action`: best action
starts at the first safe action, best score at minus infinity (`none`,
which any score beats), and the best action is replaced exactly when a
candidate's score is strictly greater. -/
def chooseLoop (env : SnakeEnv) (qv : List ℚ) (baseDist : Nat) :
    List Int → Int → Option ℚ → Int
  | [], bestA, _ => bestA
  | a :: rest, bestA, bestS =>
    let sc := candScore env qv baseDist a
    let beats : Bool :=
      match bestS with
      | none => true
      | some b => decide (b < sc)
    if beats then chooseLoop env qv baseDist rest a (some sc)
    else chooseLoop env qv baseDist rest bestA bestS

/-- `HybridSnakeAgent.choose_action`: default action 0 when no action is
safe, else the best-scoring safe action. -/
def chooseAction (qt : QTable) (env : SnakeEnv) (state : List Nat) : Int :=
  match safeActions env with
  | [] => 0
  | a0 :: rest =>
    chooseLoop env (qLookup qt state)
      (manhattanDist (env.snake.headD (0, 0)) env.food) (a0 :: rest) a0 none

/-- Python `key.split("|")` on the character list of a key. -/
def splitPipe : List Char → List (List Char)
  | [] => [[]]
  | c :: cs =>
    let r := splitPipe cs
    if c = '|' then [] :: r
    else
      match r with
      | [] => [[c]]
      | g :: gs => (c :: g) :: gs

/-- Digits accumulator for `parseDigits`. -/
def parseDigitsAux : List Char → Nat → Option Nat
  | [], acc => some acc
  | c :: cs, acc =>
    if '0' ≤ c ∧ c ≤ '9' then
      parseDigitsAux cs (acc * 10 + (c.toNat - Char.toNat '0'))
    else none

/-- A non-empty all-digit character list, as a number. -/
def parseDigits : List Char → Option Nat
  | [] => none
  | cs => parseDigitsAux cs 0

/-- Python `int(s)` on a key chunk: an optional minus sign followed by
digits; anything else raises `ValueError` (`none`). -/
def parseIntChars (cs : List Char) : Option Int :=
  match cs with
  | '-' :: rest => (parseDigits rest).map fun n => -(n : Int)
  | _ => (parseDigits cs).map fun n => (n : Int)

/-- `tuple(int(x) for x in key.split("|"))` from `load_q_table`: `none`
models the `ValueError` raised when some chunk is not an integer. -/
def parseStateKey (key : String) : Option (List Int) :=
  (splitPipe key.data).mapM parseIntChars

/-- `load_q_table` (train_q_learning.py / eval.py) on an already
JSON-decoded payload: every key is parsed into an integer tuple (a parse
failure aborts the whole load), and every value list is converted
entry-wise to floats and stored as-is — its length is never checked. -/
def loadQTable (payload : List (String × List ℚ)) :
    Option (List (List Int × List ℚ)) :=
  payload.mapM fun kv =>
    match parseStateKey kv.1 with
    | some s => some (s, kv.2)
    | none => none

/-- `stepFinish` returns exactly one of the win / stuck / running outputs. -/
theorem stepFinish_cases (env : SnakeEnv) (reward : ℚ) :
    stepFinish env reward = .ok ⟨env, getState env, 50, true, "win"⟩ ∨
    stepFinish env reward = .ok ⟨env, getState env, -5, true, "stuck"⟩ ∨
    stepFinish env reward = .ok ⟨env, getState env, reward, false, "running"⟩ := by
  unfold stepFinish
  split_ifs <;> simp

/-- `placeFood` only rewrites the food field, to the sentinel or to a
member of the free-cell list. -/
theorem placeFood_spec (env : SnakeEnv) (c : Nat) :
    ∃ f, placeFood env c = { env with food := f } ∧
      (f = (-1, -1) ∨ f ∈ candidatesList env) := by
  unfold placeFood
  split
  · exact ⟨(-1, -1), rfl, Or.inl rfl⟩
  · next c' cs h =>
    refine ⟨_, rfl, Or.inr ?_⟩
    rw [h]
    exact List.get_mem _ _ _

/-- Cells produced by the free-cell comprehension avoid the snake and have
nonnegative coordinates. -/
theorem mem_candidatesList (env : SnakeEnv) (p : Point)
    (h : p ∈ candidatesList env) : p ∉ env.snake ∧ 0 ≤ p.1 ∧ 0 ≤ p.2 := by
  unfold candidatesList at h
  rw [List.mem_flatMap] at h
  obtain ⟨x, -, hy⟩ := h
  rw [List.mem_filterMap] at hy
  obtain ⟨y, -, hp⟩ := hy
  by_cases hmem : ((Int.ofNat x, Int.ofNat y) : Point) ∈ env.snake
  · rw [if_pos hmem] at hp
    cases hp
  · rw [if_neg hmem] at hp
    cases hp
    exact ⟨hmem, by simp [Int.ofNat_nonneg], by simp [Int.ofNat_nonneg]⟩

/-- `dirAt` always yields one of the four clockwise directions. -/
theorem dirAt_cases (i : Nat) :
    dirAt i = RIGHT ∨ dirAt i = DOWN ∨ dirAt i = LEFT ∨ dirAt i = UP := by
  unfold dirAt
  have h : i % 4 = 0 ∨ i % 4 = 1 ∨ i % 4 = 2 ∨ i % 4 = 3 := by omega
  rcases h with h | h | h | h <;> rw [h] <;> simp [CLOCKWISE]

/-- A resolved heading is one of the four clockwise directions. -/
theorem nextDirection_cases (d : Direction) (a : Int) (d' : Direction)
    (h : nextDirection d a = some d') :
    d' = RIGHT ∨ d' = DOWN ∨ d' = LEFT ∨ d' = UP := by
  unfold nextDirection at h
  split_ifs at h <;> cases h <;> exact dirAt_cases _

/-- Moving by a clockwise direction always changes the head cell. -/
theorem nextHead_ne_head (env : SnakeEnv) (d : Direction)
    (hd : d = RIGHT ∨ d = DOWN ∨ d = LEFT ∨ d = UP) :
    nextHead env d ≠ env.snake.headD (0, 0) := by
  rcases hd with h | h | h | h <;> subst h <;>
    simp [nextHead, RIGHT, DOWN, LEFT, UP, Prod.ext_iff]

/-- Unfolding of the collision test. -/
theorem isCollision_iff (env : SnakeEnv) (pt : Point) :
    isCollision env pt = true ↔
      (pt.1 < 0 ∨ env.width ≤ pt.1 ∨ pt.2 < 0 ∨ env.height ≤ pt.2 ∨
        pt ∈ env.snake.tail) := by
  unfold isCollision
  split_ifs with h1 h2 <;> simp_all <;> tauto

/-- Inversion for a non-terminating step: the action resolved to a heading,
the move did not collide, and the new environment is the eat or the move
environment according to whether the new head hit the food. -/
theorem stepWith_ok_inv (env : SnakeEnv) (a : Int) (c : Nat) (out : StepOutput)
    (h : stepWith env a c = .ok out) (hdone : out.done = false) :
    ∃ d, nextDirection env.direction a = some d ∧
      isCollision env (nextHead env d) = false ∧
      ((nextHead env d = env.food ∧ out.env = eatEnv env d c) ∨
       (nextHead env d ≠ env.food ∧ out.env = moveEnv env d)) := by
  unfold stepWith at h
  cases hnd : nextDirection env.direction a with
  | none => rw [hnd] at h; cases h
  | some d =>
    rw [hnd] at h
    simp only [] at h
    refine ⟨d, rfl, ?_⟩
    by_cases hcol : isCollision env (nextHead env d) = true
    · rw [if_pos hcol] at h
      cases h
      cases hdone
    · rw [if_neg hcol] at h
      refine ⟨by simpa using hcol, ?_⟩
      by_cases hate : nextHead env d = env.food
      · rw [if_pos hate] at h
        left
        rcases stepFinish_cases (eatEnv env d c) 15 with hf | hf | hf <;>
          rw [hf] at h <;> cases h <;> exact ⟨hate, rfl⟩
      · rw [if_neg hate] at h
        right
        rcases stepFinish_cases (moveEnv env d) _ with hf | hf | hf <;>
          rw [hf] at h <;> cases h <;> exact ⟨hate, rfl⟩

/-- `eatEnv` in explicit form: all fields of the post-eat environment, with
the new food either the sentinel or a free cell of the grown snake. -/
theorem eatEnv_spec (env : SnakeEnv) (d : Direction) (c : Nat) :
    ∃ f, eatEnv env d c =
      { env with
        frame_count := 0
        direction := d
        snake := nextHead env d :: env.snake
        score := env.score + 1
        food := f } ∧
      (f = (-1, -1) ∨
        f ∈ candidatesList
          { env with
            frame_count := env.frame_count + 1
            direction := d
            snake := nextHead env d :: env.snake
            score := env.score + 1 }) := by
  obtain ⟨f, hpf, hf⟩ := placeFood_spec
    { env with
      frame_count := env.frame_count + 1
      direction := d
      snake := nextHead env d :: env.snake
      score := env.score + 1 } c
  refine ⟨f, ?_, hf⟩
  unfold eatEnv
  rw [hpf]

/-- The environment invariant maintained by `reset` and non-terminating
steps: snake cells pairwise distinct, food off the snake, snake length
equal to score + 3, snake non-empty, all snake cells at nonnegative y. -/
def EnvInv (env : SnakeEnv) : Prop :=
  env.snake.Nodup ∧ env.food ∉ env.snake ∧
  (env.snake.length : Int) = env.score + 3 ∧
  env.snake ≠ [] ∧ ∀ p ∈ env.snake, 0 ≤ p.2

/-- States reachable through the public interface: a fresh reset (of a
board whose height is nonnegative) or any non-terminating step from a
reachable state. -/
inductive Reachable : SnakeEnv → Prop
  | reset (w h : Int) (c : Nat) (hh : 0 ≤ h) : Reachable (resetWith w h c)
  | step (env : SnakeEnv) (a : Int) (c : Nat) (out : StepOutput)
      (hr : Reachable env) (hs : stepWith env a c = .ok out)
      (hd : out.done = false) : Reachable out.env

/-- `reset` establishes the environment invariant (nonnegative height). -/
theorem resetWith_inv (w h : Int) (c : Nat) (hh : 0 ≤ h) :
    EnvInv (resetWith w h c) := by
  have hcy : 0 ≤ Int.fdiv h 2 := Int.fdiv_nonneg hh (by omega)
  obtain ⟨f, hpf, hf⟩ := placeFood_spec
    { width := w
      height := h
      snake := [(Int.fdiv w 2, Int.fdiv h 2), (Int.fdiv w 2 - 1, Int.fdiv h 2),
        (Int.fdiv w 2 - 2, Int.fdiv h 2)]
      direction := RIGHT
      food := (0, 0)
      score := 0
      frame_count := 0 } c
  show EnvInv (placeFood _ c)
  rw [hpf]
  refine ⟨?_, ?_, by simp, by simp, ?_⟩
  · refine List.nodup_cons.mpr ⟨?_, List.nodup_cons.mpr ⟨?_, List.nodup_singleton _⟩⟩
    · intro hmem
      simp only [List.mem_cons, List.not_mem_nil, or_false, Prod.ext_iff] at hmem
      omega
    · intro hmem
      simp only [List.mem_cons, List.not_mem_nil, or_false, Prod.ext_iff] at hmem
      omega
  · rcases hf with hf | hf
    · subst hf
      intro hmem
      simp only [List.mem_cons, List.not_mem_nil, or_false, Prod.ext_iff] at hmem
      omega
    · exact (mem_candidatesList _ _ hf).1
  · intro p hp
    simp only [List.mem_cons, List.not_mem_nil, or_false] at hp
    rcases hp with rfl | rfl | rfl <;> exact hcy

/-- A non-colliding, non-eating move preserves the environment invariant. -/
theorem envInv_step_move (env : SnakeEnv) (d : Direction)
    (hinv : EnvInv env)
    (hd : d = RIGHT ∨ d = DOWN ∨ d = LEFT ∨ d = UP)
    (hcol : isCollision env (nextHead env d) = false)
    (hne : nextHead env d ≠ env.food) :
    EnvInv (moveEnv env d) := by
  obtain ⟨hnodup, hfood, hlen, hnil, hy⟩ := hinv
  have hnc : ¬ ((nextHead env d).1 < 0 ∨ env.width ≤ (nextHead env d).1 ∨
      (nextHead env d).2 < 0 ∨ env.height ≤ (nextHead env d).2 ∨
      nextHead env d ∈ env.snake.tail) := by
    rw [← isCollision_iff]
    simp [hcol]
  push_neg at hnc
  obtain ⟨-, -, hnh_y, -, hnh_tail⟩ := hnc
  have hhead := nextHead_ne_head env d hd
  obtain ⟨s0, stail, hs⟩ : ∃ s0 stail, env.snake = s0 :: stail := by
    cases hsn : env.snake with
    | nil => exact absurd hsn hnil
    | cons s0 stail => exact ⟨s0, stail, rfl⟩
  have hnh_mem : nextHead env d ∉ env.snake := by
    rw [hs]
    intro hmem
    rcases List.mem_cons.mp hmem with hh0 | hh0
    · exact hhead (by rw [hs, hh0]; rfl)
    · exact hnh_tail (by rw [hs]; exact hh0)
  have hcons : (nextHead env d :: env.snake).Nodup :=
    List.nodup_cons.mpr ⟨hnh_mem, hnodup⟩
  have hsub := List.dropLast_sublist (nextHead env d :: env.snake)
  refine ⟨?_, ?_, ?_, ?_, ?_⟩
  · exact List.Nodup.sublist hsub hcons
  · intro hmem
    rcases List.mem_cons.mp (hsub.subset hmem) with hh0 | hh0
    · exact hne hh0.symm
    · exact hfood hh0
  · show ((nextHead env d :: env.snake).dropLast.length : Int) = env.score + 3
    rw [List.length_dropLast]
    simp only [List.length_cons]
    omega
  · show (nextHead env d :: env.snake).dropLast ≠ []
    rw [hs]
    simp
  · intro p hp
    rcases List.mem_cons.mp (hsub.subset hp) with rfl | hh0
    · exact hnh_y
    · exact hy p hh0

/-- A non-colliding, food-eating move preserves the environment
invariant. -/
theorem envInv_step_eat (env : SnakeEnv) (d : Direction) (c : Nat)
    (hinv : EnvInv env)
    (hd : d = RIGHT ∨ d = DOWN ∨ d = LEFT ∨ d = UP)
    (hcol : isCollision env (nextHead env d) = false) :
    EnvInv (eatEnv env d c) := by
  obtain ⟨hnodup, hfood, hlen, hnil, hy⟩ := hinv
  have hnc : ¬ ((nextHead env d).1 < 0 ∨ env.width ≤ (nextHead env d).1 ∨
      (nextHead env d).2 < 0 ∨ env.height ≤ (nextHead env d).2 ∨
      nextHead env d ∈ env.snake.tail) := by
    rw [← isCollision_iff]
    simp [hcol]
  push_neg at hnc
  obtain ⟨-, -, hnh_y, -, hnh_tail⟩ := hnc
  have hhead := nextHead_ne_head env d hd
  obtain ⟨s0, stail, hs⟩ : ∃ s0 stail, env.snake = s0 :: stail := by
    cases hsn : env.snake with
    | nil => exact absurd hsn hnil
    | cons s0 stail => exact ⟨s0, stail, rfl⟩
  have hnh_mem : nextHead env d ∉ env.snake := by
    rw [hs]
    intro hmem
    rcases List.mem_cons.mp hmem with hh0 | hh0
    · exact hhead (by rw [hs, hh0]; rfl)
    · exact hnh_tail (by rw [hs]; exact hh0)
  have hy' : ∀ p ∈ nextHead env d :: env.snake, 0 ≤ p.2 := by
    intro p hp
    rcases List.mem_cons.mp hp with rfl | hh0
    · exact hnh_y
    · exact hy p hh0
  obtain ⟨f, heq, hf⟩ := eatEnv_spec env d c
  rw [heq]
  refine ⟨List.nodup_cons.mpr ⟨hnh_mem, hnodup⟩, ?_, ?_, by simp, hy'⟩
  · rcases hf with hf | hf
    · subst hf
      intro hmem
      have := hy' _ hmem
      simp at this
    · exact (mem_candidatesList _ _ hf).1
  · simp only [List.length_cons]
    push_cast
    omega

/-- Every reachable state satisfies the environment invariant. -/
theorem reachable_inv (env : SnakeEnv) (h : Reachable env) : EnvInv env := by
  induction h with
  | reset w hgt c hh => exact resetWith_inv w hgt c hh
  | step env a c out hr hstep hdone ih =>
    obtain ⟨d, hnd, hcol, hcase⟩ := stepWith_ok_inv env a c out hstep hdone
    have hdir := nextDirection_cases env.direction a d hnd
    rcases hcase with ⟨hate, heq⟩ | ⟨hne, heq⟩
    · rw [heq]
      exact envInv_step_eat env d c ih hdir hcol
    · rw [heq]
      exact envInv_step_move env d ih hdir hcol hne

/-- C5 (amended): for every state reachable through reset (on a board of
nonnegative height) and non-terminating steps, the snake's cells are
pairwise distinct, the food cell does not overlap the snake, and the
snake's length equals score + 3. -/
theorem snake_state_invariant (env : SnakeEnv) (h : Reachable env) :
    env.snake.Nodup ∧ env.food ∉ env.snake ∧
    (env.snake.length : Int) = env.score + 3 :=
  ⟨(reachable_inv env h).1, (reachable_inv env h).2.1,
    (reachable_inv env h).2.2.1⟩

/-- Witness for C5: the invariant at a concrete reset 6x6 board. -/
theorem snake_state_invariant_w :
    (resetWith 6 6 0).snake.Nodup ∧
    (resetWith 6 6 0).food ∉ (resetWith 6 6 0).snake ∧
    ((resetWith 6 6 0).snake.length : Int) = (resetWith 6 6 0).score + 3 :=
  snake_state_invariant _ (Reachable.reset 6 6 0 (by decide))

/-- Counterexample to C5 as stated: a reset of a board with negative
dimensions (accepted by the constructor) makes the food sentinel (-1, -1)
coincide with the snake's head, so food overlaps the snake immediately
after reset. -/
theorem snake_state_invariant_cex :
    (resetWith (-1) (-1) 0).food ∈ (resetWith (-1) (-1) 0).snake := by decide

/-- C6 (amended): for widths at least 4 and heights at least 1, reset
yields the centered 3-cell snake heading right, all in bounds, with score
0, frame counter 0, and the food off the snake. -/
theorem reset_spec (w h : Int) (c : Nat) (hw : 4 ≤ w) (hh : 1 ≤ h) :
    (resetWith w h c).snake =
      [(Int.fdiv w 2, Int.fdiv h 2), (Int.fdiv w 2 - 1, Int.fdiv h 2),
        (Int.fdiv w 2 - 2, Int.fdiv h 2)] ∧
    (resetWith w h c).snake.length = 3 ∧
    (∀ p ∈ (resetWith w h c).snake,
      0 ≤ p.1 ∧ p.1 < w ∧ 0 ≤ p.2 ∧ p.2 < h) ∧
    (resetWith w h c).direction = RIGHT ∧
    (resetWith w h c).score = 0 ∧
    (resetWith w h c).frame_count = 0 ∧
    (resetWith w h c).food ∉ (resetWith w h c).snake := by
  have hx2 : 2 ≤ Int.fdiv w 2 := by
    rw [Int.fdiv_eq_ediv _ (by omega : (0 : Int) ≤ 2)]
    omega
  have hxlt : Int.fdiv w 2 < w := by
    rw [Int.fdiv_eq_ediv _ (by omega : (0 : Int) ≤ 2)]
    omega
  have hy0 : 0 ≤ Int.fdiv h 2 := Int.fdiv_nonneg (by omega) (by omega)
  have hylt : Int.fdiv h 2 < h := by
    rw [Int.fdiv_eq_ediv _ (by omega : (0 : Int) ≤ 2)]
    omega
  obtain ⟨f, hpf, hf⟩ := placeFood_spec
    { width := w
      height := h
      snake := [(Int.fdiv w 2, Int.fdiv h 2), (Int.fdiv w 2 - 1, Int.fdiv h 2),
        (Int.fdiv w 2 - 2, Int.fdiv h 2)]
      direction := RIGHT
      food := (0, 0)
      score := 0
      frame_count := 0 } c
  have hres : resetWith w h c = _ := hpf
  rw [hres]
  refine ⟨rfl, rfl, ?_, rfl, rfl, rfl, ?_⟩
  · intro p hp
    simp only [List.mem_cons, List.not_mem_nil, or_false] at hp
    rcases hp with rfl | rfl | rfl <;> refine ⟨by omega, by omega, hy0, hylt⟩
  · rcases hf with hf | hf
    · subst hf
      intro hmem
      simp only [List.mem_cons, List.not_mem_nil, or_false, Prod.ext_iff] at hmem
      omega
    · exact (mem_candidatesList _ _ hf).1

/-- Witness for C6: the reset layout at a concrete 12x12 board. -/
theorem reset_spec_w :
    (resetWith 12 12 0).snake =
      [(Int.fdiv 12 2, Int.fdiv 12 2), (Int.fdiv 12 2 - 1, Int.fdiv 12 2),
        (Int.fdiv 12 2 - 2, Int.fdiv 12 2)] ∧
    (resetWith 12 12 0).snake.length = 3 ∧
    (∀ p ∈ (resetWith 12 12 0).snake,
      0 ≤ p.1 ∧ p.1 < 12 ∧ 0 ≤ p.2 ∧ p.2 < 12) ∧
    (resetWith 12 12 0).direction = RIGHT ∧
    (resetWith 12 12 0).score = 0 ∧
    (resetWith 12 12 0).frame_count = 0 ∧
    (resetWith 12 12 0).food ∉ (resetWith 12 12 0).snake :=
  reset_spec 12 12 0 (by decide) (by decide)

/-- Counterexample to C6 as stated: on a 3x3 board, reset places the snake
cell (-1, 1), which is out of bounds — so reset is NOT in-bounds for every
board width and height. -/
theorem reset_spec_cex :
    ((-1 : Int), (1 : Int)) ∈ (resetWith 3 3 0).snake ∧
    ¬ (0 ≤ (-1 : Int)) := by decide

/-- C7 (amended): an action outside {0,1,2} makes step raise an
invalid-argument failure (never clamped to a valid action); the state at
raise time differs from the pre-call state exactly by the already
incremented frame counter (snake, heading, food, score unchanged). -/
theorem step_invalid_action (env : SnakeEnv) (a : Int) (c : Nat)
    (h0 : a ≠ 0) (h1 : a ≠ 1) (h2 : a ≠ 2) :
    stepWith env a c = .err { env with frame_count := env.frame_count + 1 } := by
  have hnd : nextDirection env.direction a = none := by
    unfold nextDirection
    rw [if_neg h0, if_neg h1, if_neg h2]
  unfold stepWith
  rw [hnd]

/-- A concrete 4x4 environment for the invalid-action results. -/
def invalidActionEnv : SnakeEnv :=
  { width := 4, height := 4, snake := [(1, 1)], direction := RIGHT, food := (3, 3), score := 0, frame_count := 0 }

/-- Witness for C7: invalid action 5 on a concrete environment. -/
theorem step_invalid_action_w :
    stepWith invalidActionEnv 5 0 =
      .err { invalidActionEnv with
             frame_count := invalidActionEnv.frame_count + 1 } :=
  step_invalid_action invalidActionEnv 5 0 (by decide) (by decide) (by decide)

/-- Counterexample to C7 as stated: the call with invalid action 3 fails,
but the state it leaves behind is NOT the unchanged pre-call state — the
frame counter was already incremented when the failure was raised. -/
theorem step_invalid_action_cex :
    stepWith invalidActionEnv 3 0 =
      .err { invalidActionEnv with
             frame_count := invalidActionEnv.frame_count + 1 } ∧
    (stepWith invalidActionEnv 3 0).envD ≠ invalidActionEnv := by decide

/-- C8 (amended): the shortest-path search returns 0 whenever start equals
target (even when that cell is blocked, as the start==target test runs
first), and returns the no-path sentinel whenever the target is blocked
and differs from the start. -/
theorem shortestPathDist_base (start target : Point) (blocked : List Point)
    (w h : Int) :
    (start = target → shortestPathDist start target blocked w h = some 0) ∧
    (start ≠ target → target ∈ blocked →
      shortestPathDist start target blocked w h = none) := by
  constructor
  · intro he
    unfold shortestPathDist
    rw [if_pos he]
  · intro hne hb
    unfold shortestPathDist
    rw [if_neg hne, if_pos hb]

/-- Witness for C8: both base cases at concrete inputs. -/
theorem shortestPathDist_base_w :
    shortestPathDist (1, 1) (1, 1) [] 3 3 = some 0 ∧
    shortestPathDist (0, 0) (2, 2) [(2, 2)] 3 3 = none :=
  ⟨(shortestPathDist_base (1, 1) (1, 1) [] 3 3).1 rfl,
   (shortestPathDist_base (0, 0) (2, 2) [(2, 2)] 3 3).2 (by decide) (by decide)⟩

/-- Counterexample to C8 as stated: with the target in the blocked set but
equal to the start, the search returns 0, not the no-path sentinel. -/
theorem shortestPathDist_base_cex :
    ((0, 0) : Point) ∈ ([((0, 0) : Point)] : List Point) ∧
    shortestPathDist (0, 0) (0, 0) [(0, 0)] 5 5 = some 0 := by decide

/-- C10: when the free-cell list is empty (snake occupies every in-bounds
cell), food placement stores the sentinel (-1, -1) in the food field
instead of failing, leaving the snake untouched. -/
theorem placeFood_full_board (env : SnakeEnv) (c : Nat)
    (h : candidatesList env = []) :
    (placeFood env c).food = (-1, -1) ∧ (placeFood env c).snake = env.snake := by
  unfold placeFood
  split
  · exact ⟨rfl, rfl⟩
  · next c' cs hc =>
    rw [h] at hc
    simp at hc

/-- A concrete 1x2 board fully covered by the snake. -/
def fullBoardEnv : SnakeEnv :=
  { width := 1, height := 2, snake := [(0, 0), (0, 1)], direction := RIGHT, food := (0, 1), score := 0, frame_count := 0 }

/-- Witness for C10: food placement on the full 1x2 board. -/
theorem placeFood_full_board_w :
    (placeFood fullBoardEnv 0).food = (-1, -1) ∧
    (placeFood fullBoardEnv 0).snake = fullBoardEnv.snake :=
  placeFood_full_board fullBoardEnv 0 (by decide)

/-- C1 (amended): for actions in {0,1,2}, a step reports reason
"collision" exactly when the resolved new head is out of bounds or lies in
`snake[1:]` — the body without the head but INCLUDING the tail, even when
that tail cell is about to be vacated. -/
theorem step_collision_iff (env : SnakeEnv) (a : Int) (c : Nat)
    (ha : a = 0 ∨ a = 1 ∨ a = 2) :
    (stepWith env a c).reasonD = "collision" ↔
      ((resolvedNewHead env a).1 < 0 ∨ env.width ≤ (resolvedNewHead env a).1 ∨
       (resolvedNewHead env a).2 < 0 ∨ env.height ≤ (resolvedNewHead env a).2 ∨
       resolvedNewHead env a ∈ env.snake.tail) := by
  obtain ⟨d, hnd⟩ : ∃ d, nextDirection env.direction a = some d := by
    rcases ha with h | h | h <;> subst h
    · exact ⟨dirAt (clockwiseIdx env.direction), by unfold nextDirection; simp⟩
    · exact ⟨dirAt (clockwiseIdx env.direction + 1),
        by unfold nextDirection; simp⟩
    · exact ⟨dirAt (clockwiseIdx env.direction + 3),
        by unfold nextDirection; simp⟩
  have hrh : resolvedNewHead env a = nextHead env d := by
    unfold resolvedNewHead resolvedDir
    rw [hnd]
    rfl
  rw [hrh]
  unfold stepWith
  simp only [hnd]
  by_cases hcol : isCollision env (nextHead env d) = true
  · rw [if_pos hcol]
    simp only [StepResult.reasonD, eq_self_iff_true, true_iff]
    exact (isCollision_iff env (nextHead env d)).mp hcol
  · rw [if_neg hcol]
    have hrhs := (isCollision_iff env (nextHead env d)).not.mp hcol
    constructor
    · intro hr
      exfalso
      by_cases hate : nextHead env d = env.food
      · rw [if_pos hate] at hr
        rcases stepFinish_cases (eatEnv env d c) 15 with hf | hf | hf <;>
          rw [hf] at hr <;> simp only [StepResult.reasonD] at hr <;>
          exact absurd hr (by decide)
      · rw [if_neg hate] at hr
        rcases stepFinish_cases (moveEnv env d) _ with hf | hf | hf <;>
          rw [hf] at hr <;> simp only [StepResult.reasonD] at hr <;>
          exact absurd hr (by decide)
    · intro hr
      exact absurd hr hrhs

/-- A 4x4 environment whose snake curls so that its tail cell (1, 1) is
adjacent to its head (1, 0). -/
def tailChaseEnv : SnakeEnv :=
  { width := 4, height := 4, snake := [(1, 0), (0, 0), (0, 1), (1, 1)], direction := RIGHT, food := (3, 3), score := 0, frame_count := 0 }

/-- Counterexample to C1 as stated: turning right moves the head onto the
snake's current tail cell (1, 1) — in bounds, equal to the tail about to
be vacated, and different from the food — yet the step DOES end with
reason "collision". -/
theorem step_collision_iff_cex :
    resolvedNewHead tailChaseEnv 1 = (1, 1) ∧
    tailChaseEnv.snake.getLast? = some (1, 1) ∧
    (0 ≤ (1 : Int) ∧ (1 : Int) < tailChaseEnv.width ∧
      0 ≤ (1 : Int) ∧ (1 : Int) < tailChaseEnv.height) ∧
    resolvedNewHead tailChaseEnv 1 ≠ tailChaseEnv.food ∧
    (stepWith tailChaseEnv 1 0).reasonD = "collision" := by decide

/-- Witness for C1: the collision characterization at a concrete input. -/
theorem step_collision_iff_w :
    (stepWith tailChaseEnv 1 0).reasonD = "collision" ↔
      ((resolvedNewHead tailChaseEnv 1).1 < 0 ∨
       tailChaseEnv.width ≤ (resolvedNewHead tailChaseEnv 1).1 ∨
       (resolvedNewHead tailChaseEnv 1).2 < 0 ∨
       tailChaseEnv.height ≤ (resolvedNewHead tailChaseEnv 1).2 ∨
       resolvedNewHead tailChaseEnv 1 ∈ tailChaseEnv.snake.tail) :=
  step_collision_iff tailChaseEnv 1 0 (by decide)

/-- C2 (amended): on a fatal move the snake, food and score are preserved,
but the heading has already been updated to the resolved direction and the
frame counter incremented; the encoded state returned is that of the
pre-move snake/food with the NEW heading (the frame counter does not enter
the encoding). -/
theorem step_collision_preserves (env : SnakeEnv) (a : Int) (c : Nat)
    (h : (stepWith env a c).reasonD = "collision") :
    (stepWith env a c).envD =
      { env with
        frame_count := env.frame_count + 1
        direction := resolvedDir env a } ∧
    (stepWith env a c).envD.snake = env.snake ∧
    (stepWith env a c).envD.food = env.food ∧
    (stepWith env a c).envD.score = env.score ∧
    (stepWith env a c).stateD =
      getState { env with direction := resolvedDir env a } := by
  cases hnd : nextDirection env.direction a with
  | none =>
    unfold stepWith at h
    simp only [hnd, StepResult.reasonD] at h
    exact absurd h (by decide)
  | some d =>
    have hd' : resolvedDir env a = d := by
      unfold resolvedDir
      rw [hnd]
      rfl
    unfold stepWith at h ⊢
    simp only [hnd] at h ⊢
    cases hcol : isCollision env (nextHead env d) with
    | false =>
      exfalso
      simp only [hcol, Bool.false_eq_true, if_false] at h
      by_cases hate : nextHead env d = env.food
      · rw [if_pos hate] at h
        rcases stepFinish_cases (eatEnv env d c) 15 with hf | hf | hf <;>
          rw [hf] at h <;> simp only [StepResult.reasonD] at h <;>
          exact absurd h (by decide)
      · rw [if_neg hate] at h
        rcases stepFinish_cases (moveEnv env d) _ with hf | hf | hf <;>
          rw [hf] at h <;> simp only [StepResult.reasonD] at h <;>
          exact absurd h (by decide)
    | true =>
      simp only [if_pos hcol, StepResult.envD, StepResult.stateD]
      rw [hd']
      exact ⟨rfl, rfl, rfl, rfl, rfl⟩

/-- A 4x4 environment at the top-left wall, heading left. -/
def turnCollisionEnv : SnakeEnv :=
  { width := 4, height := 4, snake := [(0, 0), (1, 0), (2, 0)], direction := LEFT, food := (3, 3), score := 0, frame_count := 0 }

/-- Counterexample to C2 as stated: turning right at the wall collides,
but the post-call state is NOT the unchanged pre-call state — heading and
frame counter changed — and the returned encoded state differs from the
encoding of the state immediately before the call. -/
theorem step_collision_preserves_cex :
    (stepWith turnCollisionEnv 1 0).reasonD = "collision" ∧
    (stepWith turnCollisionEnv 1 0).envD ≠ turnCollisionEnv ∧
    (stepWith turnCollisionEnv 1 0).envD.frame_count ≠
      turnCollisionEnv.frame_count ∧
    (stepWith turnCollisionEnv 1 0).envD.direction ≠
      turnCollisionEnv.direction ∧
    (stepWith turnCollisionEnv 1 0).stateD ≠ getState turnCollisionEnv := by
  decide

/-- Witness for C2: the preservation statement at a concrete collision. -/
theorem step_collision_preserves_w :
    (stepWith turnCollisionEnv 1 0).envD =
      { turnCollisionEnv with
        frame_count := turnCollisionEnv.frame_count + 1
        direction := resolvedDir turnCollisionEnv 1 } ∧
    (stepWith turnCollisionEnv 1 0).envD.snake = turnCollisionEnv.snake ∧
    (stepWith turnCollisionEnv 1 0).envD.food = turnCollisionEnv.food ∧
    (stepWith turnCollisionEnv 1 0).envD.score = turnCollisionEnv.score ∧
    (stepWith turnCollisionEnv 1 0).stateD =
      getState { turnCollisionEnv with
                 direction := resolvedDir turnCollisionEnv 1 } :=
  step_collision_preserves turnCollisionEnv 1 0 (by decide)

/-- C4: a step that neither eats nor terminates returns the fixed step
penalty -0.03 adjusted by +0.2 when the Manhattan distance to food
strictly decreased, by -0.2 when it strictly increased, and by nothing
when it is unchanged. -/
theorem step_running_reward (env : SnakeEnv) (a : Int) (c : Nat)
    (hrun : (stepWith env a c).reasonD = "running")
    (hne : resolvedNewHead env a ≠ env.food) :
    (stepWith env a c).rewardD =
      -3/100 +
        (if manhattanDist env.food (resolvedNewHead env a) <
            manhattanDist env.food (env.snake.headD (0, 0)) then 2/10
         else if manhattanDist env.food (env.snake.headD (0, 0)) <
            manhattanDist env.food (resolvedNewHead env a) then -2/10
         else 0) := by
  cases hnd : nextDirection env.direction a with
  | none =>
    unfold stepWith at hrun
    simp only [hnd, StepResult.reasonD] at hrun
    exact absurd hrun (by decide)
  | some d =>
    have hrh : resolvedNewHead env a = nextHead env d := by
      unfold resolvedNewHead resolvedDir
      rw [hnd]
      rfl
    rw [hrh] at hne ⊢
    unfold stepWith at hrun ⊢
    simp only [hnd] at hrun ⊢
    cases hcol : isCollision env (nextHead env d) with
    | true =>
      simp only [if_pos hcol, StepResult.reasonD] at hrun
      exact absurd hrun (by decide)
    | false =>
      simp only [hcol, Bool.false_eq_true, if_false, if_neg hne] at hrun ⊢
      rcases stepFinish_cases (moveEnv env d)
          (if manhattanDist env.food (nextHead env d) <
              manhattanDist env.food (env.snake.headD (0, 0)) then -3/100 + 2/10
           else if manhattanDist env.food (env.snake.headD (0, 0)) <
              manhattanDist env.food (nextHead env d) then -3/100 - 2/10
           else -3/100) with hf | hf | hf <;> rw [hf] at hrun ⊢
      · simp only [StepResult.reasonD] at hrun
        exact absurd hrun (by decide)
      · simp only [StepResult.reasonD] at hrun
        exact absurd hrun (by decide)
      · show (if manhattanDist env.food (nextHead env d) <
              manhattanDist env.food (env.snake.headD (0, 0)) then
                (-3/100 + 2/10 : ℚ)
           else if manhattanDist env.food (env.snake.headD (0, 0)) <
              manhattanDist env.food (nextHead env d) then -3/100 - 2/10
           else -3/100) = _
        split_ifs <;> norm_num

/-- A 6x6 environment with food straight ahead of the snake. -/
def runningStepEnv : SnakeEnv :=
  { width := 6, height := 6, snake := [(3, 3), (2, 3), (1, 3)], direction := RIGHT, food := (5, 3), score := 0, frame_count := 0 }

/-- Witness for C4: a straight move toward the food yields reward
-0.03 + 0.2. -/
theorem step_running_reward_w :
    (stepWith runningStepEnv 0 0).reasonD = "running" ∧
    (stepWith runningStepEnv 0 0).rewardD =
      -3/100 +
        (if manhattanDist runningStepEnv.food (resolvedNewHead runningStepEnv 0) <
            manhattanDist runningStepEnv.food
              (runningStepEnv.snake.headD (0, 0)) then 2/10
         else if manhattanDist runningStepEnv.food
              (runningStepEnv.snake.headD (0, 0)) <
            manhattanDist runningStepEnv.food
              (resolvedNewHead runningStepEnv 0) then -2/10
         else 0) :=
  ⟨by decide, step_running_reward runningStepEnv 0 0 (by decide) (by decide)⟩

/-- The best-action accumulator of the candidate loop only ever holds its
initial value or an element of the remaining candidate list. -/
theorem chooseLoop_mem (env : SnakeEnv) (qv : List ℚ) (bd : Nat) (l : List Int) :
    ∀ (bA : Int) (bS : Option ℚ),
      chooseLoop env qv bd l bA bS = bA ∨ chooseLoop env qv bd l bA bS ∈ l := by
  induction l with
  | nil =>
    intro bA bS
    left
    rfl
  | cons a rest ih =>
    intro bA bS
    simp only [chooseLoop]
    by_cases hb : (match bS with
      | none => true
      | some b => decide (b < candScore env qv bd a)) = true
    · rw [if_pos hb]
      rcases ih a (some (candScore env qv bd a)) with h | h
      · right
        rw [h]
        exact List.mem_cons_self a rest
      · right
        exact List.mem_cons_of_mem _ h
    · rw [if_neg hb]
      rcases ih bA bS with h | h
      · left
        exact h
      · right
        exact List.mem_cons_of_mem _ h

/-- C3: for every value table, environment and encoded state, the chosen
action belongs to the safety filter's output whenever that output is
non-empty, and is the fixed default 0 whenever it is empty. -/
theorem chooseAction_spec (qt : QTable) (env : SnakeEnv) (state : List Nat) :
    (safeActions env = [] → chooseAction qt env state = 0) ∧
    (safeActions env ≠ [] → chooseAction qt env state ∈ safeActions env) := by
  constructor
  · intro h
    unfold chooseAction
    simp only [h]
  · intro h
    unfold chooseAction
    cases hs : safeActions env with
    | nil => exact absurd hs h
    | cons a0 rest =>
      simp only [hs]
      rcases chooseLoop_mem env (qLookup qt state)
          (manhattanDist (env.snake.headD (0, 0)) env.food)
          (a0 :: rest) a0 none with hm | hm
      · rw [hm]
        exact List.mem_cons_self a0 rest
      · exact hm

/-- A 4x4 environment whose snake blocks all three relative moves (the
would-be tail-chase cell is occupied because the body is 4 long). -/
def trappedEnv : SnakeEnv :=
  { width := 4, height := 4, snake := [(0, 0), (1, 0), (0, 1), (1, 1)], direction := LEFT, food := (3, 3), score := 0, frame_count := 0 }

/-- Witness for C3: with no safe action, the chosen action is 0. -/
theorem chooseAction_spec_w :
    safeActions trappedEnv = [] ∧
    chooseAction ([] : QTable) trappedEnv [] = 0 :=
  ⟨by decide, (chooseAction_spec ([] : QTable) trappedEnv []).1 (by decide)⟩

/-- `loadQTable` on the empty payload. -/
theorem loadQTable_nil : loadQTable [] = some [] := rfl

/-- `loadQTable` on a cons: a key-parse failure aborts the load; otherwise
the entry is prepended to the loaded rest. -/
theorem loadQTable_cons (kv : String × List ℚ) (rest : List (String × List ℚ)) :
    loadQTable (kv :: rest) =
      match parseStateKey kv.1 with
      | none => none
      | some s => (loadQTable rest).map fun t => (s, kv.2) :: t := by
  show List.mapM _ (kv :: rest) = _
  rw [List.mapM_cons]
  cases hk : parseStateKey kv.1 with
  | none => simp [hk]
  | some s =>
    show (Option.bind _ fun b => Option.bind (loadQTable rest) fun bs => some (b :: bs)) = _
    simp only [hk]
    cases loadQTable rest with
    | none => rfl
    | some t => rfl

/-- C9 (amended): loading fails exactly when some key fails to parse into
integers; the value lists are never inspected — a loaded table carries
every payload value list through unchanged, whatever its length. -/
theorem loadQTable_malformed (payload : List (String × List ℚ)) :
    (loadQTable payload = none ↔ ∃ kv ∈ payload, parseStateKey kv.1 = none) ∧
    (∀ table, loadQTable payload = some table →
      table.map Prod.snd = payload.map Prod.snd) := by
  induction payload with
  | nil =>
    constructor
    · rw [loadQTable_nil]
      simp
    · intro table ht
      rw [loadQTable_nil] at ht
      cases ht
      simp
  | cons kv rest ih =>
    obtain ⟨ih1, ih2⟩ := ih
    rw [loadQTable_cons]
    cases hk : parseStateKey kv.1 with
    | none =>
      constructor
      · constructor
        · intro _
          exact ⟨kv, List.mem_cons_self kv rest, hk⟩
        · intro _
          rfl
      · intro table ht
        cases ht
    | some s =>
      constructor
      · constructor
        · intro hnone
          cases hr : loadQTable rest with
          | none =>
            obtain ⟨kv', hkv', hp'⟩ := ih1.mp hr
            exact ⟨kv', List.mem_cons_of_mem _ hkv', hp'⟩
          | some t =>
            rw [hr] at hnone
            cases hnone
        · intro hex
          obtain ⟨kv', hkv', hp'⟩ := hex
          rcases List.mem_cons.mp hkv' with rfl | hkv'
          · rw [hk] at hp'
            cases hp'
          · rw [ih1.mpr ⟨kv', hkv', hp'⟩]
            rfl
      · intro table ht
        cases hr : loadQTable rest with
        | none =>
          rw [hr] at ht
          cases ht
        | some t =>
          rw [hr] at ht
          cases ht
          simp only [List.map_cons, List.cons.injEq]
          exact ⟨trivial, ih2 t hr⟩

/-- Counterexample to C9 as stated: an entry whose value list has length 1
(not 3) loads successfully — no fatal failure is raised for wrong-length
value lists. -/
theorem loadQTable_malformed_cex :
    loadQTable [("0", [(1 : ℚ)])] = some [([0], [1])] ∧
    ([(1 : ℚ)] : List ℚ).length ≠ 3 := by decide

/-- Witness for C9: a key that does not parse makes the whole load fail. -/
theorem loadQTable_malformed_w :
    loadQTable [("a", [(0 : ℚ), 0, 0])] = none :=
  (loadQTable_malformed [("a", [(0 : ℚ), 0, 0])]).1.mpr
    ⟨("a", [(0 : ℚ), 0, 0]), List.mem_cons_self _ _, by decide⟩
